import Mathlib

/-!
Verification development for the AMTL lock-free MPMC queue.

The repository contains two variants of the same split-reference-counted
Michael-Scott-style queue:

* the helping variant (AMTL/Core/src/MPMCQueue.h): `node_counter` packs a
  30-bit `internal_count` with a 2-bit `external_counters`; `pop` extracts the
  payload with `data.exchange(nullptr)`; the destructor body is commented out;
  `push_impl` lets losing pushers help install the dummy node and advance tail
  through `set_tail_node`.
* the non-helping variant (unnamed part_000): `node_counter` declares
  `internal_count : sizeof(int)-2`, i.e. a 2-bit field; `pop` reads the payload
  with `data.load()` without clearing the slot; the destructor walks the list
  freeing payloads and nodes; `push_impl` has no helping.

Machine integers are modelled as `Nat` with explicit `% 2 ^ w` where the C++
bit-field arithmetic truncates.  The sequential fragment of the queue is
modelled as explicit state passing over an address-indexed heap of nodes.
-/

set_option autoImplicit false

namespace AMTL

/-- `sizeof(int)` on the platforms this code targets (4 bytes).  The
non-helping variant uses this value directly as a bit count. -/
def sizeof_int : Nat := 4

/-- Width in bits of `internal_count` in the helping variant
(MPMCQueue.h line 44: `unsigned internal_count : 30;`). -/
def widthHelping : Nat := 30

/-- Width in bits of `internal_count` in the non-helping variant
(part_000 line 55: `unsigned internal_count : sizeof(int)-2;`), which is
`4 - 2 = 2` bits because `sizeof(int)` counts bytes, not bits. -/
def widthNonHelping : Nat := sizeof_int - 2

/-- The packed per-node reference counter (`struct node_counter`).  The field
`internal_count` is a `w`-bit unsigned bit-field and `external_counters` a
2-bit unsigned bit-field; both are represented as `Nat` values kept below
`2 ^ w` and `4` respectively by the modular update functions. -/
structure node_counter where
  internal_count : Nat
  external_counters : Nat
deriving DecidableEq

/-- The initial counter every node starts with (`node::node()`):
`internal_count = 0`, `external_counters = 2`. -/
def initialCounter : node_counter := { internal_count := 0, external_counters := 2 }

/-- The counter update performed by `node::release_reference`:
`--new_counter.internal_count` on a `w`-bit unsigned bit-field, i.e. a
decrement modulo `2 ^ w`; `external_counters` is untouched. -/
def release_reference (w : Nat) (c : node_counter) : node_counter :=
  { internal_count := (c.internal_count + (2 ^ w - 1)) % 2 ^ w
    external_counters := c.external_counters }

/-- The counter update performed by `free_external_count` for a snapshot whose
`external_count` is `e`: `internal_count += e - 2` (on the `w`-bit field,
with `num_increase` computed as a signed `int`) and
`--external_counters` (on the 2-bit field, so modulo 4). -/
def free_external_count (w : Nat) (e : Int) (c : node_counter) : node_counter :=
  { internal_count := (((c.internal_count : Int) + (e - 2)) % ((2 ^ w : Nat) : Int)).toNat
    external_counters := (c.external_counters + 3) % 4 }

/-- Both `release_reference` and `free_external_count` deallocate the node
iff the counter pair they installed is `(0, 0)`
(`if (!new_counter.internal_count && !new_counter.external_counters)`). -/
def deallocates (c : node_counter) : Prop :=
  c.internal_count = 0 ∧ c.external_counters = 0

instance (c : node_counter) : Decidable (deallocates c) := by
  unfold deallocates; infer_instance

/-! ### The reference-counting protocol on one node

Over its lifetime a node's packed counter receives exactly two retire
operations (`free_external_count`, once when the node is replaced as tail and
once when it is replaced as head) and one release (`release_reference`) for
every losing checkout; a retire of a snapshot with external count `e`
accounts for `e - 2` losing checkouts.  The operations may interleave in any
order. -/

/-- One counter operation of the protocol: a retire of a snapshot whose
external count is `e`, or a release by a losing thread. -/
inductive RcOp where
  | retire (e : Nat)
  | release
deriving DecidableEq

/-- Apply one protocol operation to the packed counter. -/
def rcStep (w : Nat) (c : node_counter) : RcOp → node_counter
  | .retire e => free_external_count w (e : Int) c
  | .release => release_reference w c

/-- Run a list of protocol operations left to right. -/
def rcRun (w : Nat) (c : node_counter) (ops : List RcOp) : node_counter :=
  ops.foldl (rcStep w) c

/-- The canonical operation multiset for a node retired with external counts
`e1` (tail side) and `e2` (head side): two retires plus one release per
losing checkout. -/
def rcTrace (e1 e2 : Nat) : List RcOp :=
  RcOp.retire e1 :: RcOp.retire e2 :: List.replicate ((e1 - 2) + (e2 - 2)) RcOp.release

/-- How many operations of a run install the pair `(0, 0)` and therefore
`delete` the node. -/
def deallocCount (w : Nat) : node_counter → List RcOp → Nat
  | _, [] => 0
  | c, op :: rest =>
      let c2 := rcStep w c op
      (if deallocates c2 then 1 else 0) + deallocCount w c2 rest

/-- Number of retire operations in a list. -/
def retireCount (l : List RcOp) : Nat :=
  l.countP fun op => match op with | .retire _ => true | .release => false

/-- Number of release operations in a list. -/
def relCount (l : List RcOp) : Nat :=
  l.countP fun op => match op with | .retire _ => false | .release => true

/-- The internal-count contribution of one operation's retire correction. -/
def retireCorr : RcOp → Nat
  | .retire e => e - 2
  | .release => 0

/-- Sum of the retire corrections of a list of operations. -/
def retireSum (l : List RcOp) : Nat := (l.map retireCorr).sum

/-- Every retire in the list carries an external count of at least 2 (true of
every snapshot a winner retires, since the winner itself checked the node
out of a slot that starts at external count 1). -/
def goodOps (l : List RcOp) : Prop := ∀ e : Nat, RcOp.retire e ∈ l → 2 ≤ e

/-! ### Modular arithmetic bridging lemmas -/

theorem emod_toNat_int (z : Int) (M : Nat) (hM : 0 < M) :
    (((z % (M : Int)).toNat : Int)) = z % (M : Int) :=
  Int.toNat_of_nonneg (Int.emod_nonneg z (by exact_mod_cast hM.ne'))

theorem wrapDec_eq (z : Int) (M : Nat) (hM : 0 < M) :
    ((z % (M : Int)).toNat + (M - 1)) % M = ((z - 1) % (M : Int)).toNat := by
  have h1 := emod_toNat_int z M hM
  have h2 := emod_toNat_int (z - 1) M hM
  have hM1 : (1 : Nat) ≤ M := hM
  have hcast : ((((z % (M : Int)).toNat + (M - 1)) % M : Nat) : Int)
      = ((z - 1) % (M : Int)) := by
    push_cast [hM1]
    rw [h1, Int.emod_add_emod]
    have hz : z + ((M : Int) - 1) = z - 1 + (M : Int) * 1 := by ring
    rw [hz, Int.add_mul_emod_self_left]
  omega

theorem wrapAdd_eq (z d : Int) (M : Nat) (hM : 0 < M) :
    ((((z % (M : Int)).toNat : Int) + d) % (M : Int)).toNat
      = ((z + d) % (M : Int)).toNat := by
  rw [emod_toNat_int z M hM, Int.emod_add_emod]

theorem emod_toNat_eq_zero_iff (z : Int) (M : Nat) (hM : 0 < M)
    (hlo : -(M : Int) < z) (hhi : z < M) :
    ((z % (M : Int)).toNat = 0) ↔ z = 0 := by
  have hM0 : (0 : Int) < M := by exact_mod_cast hM
  rcases le_or_lt 0 z with hz | hz
  · rw [Int.emod_eq_of_lt hz hhi]
    omega
  · have h3 : (z + (M : Int)) % M = z % M := by
      have h4 := Int.add_mul_emod_self_left (a := z) (b := (M : Int)) (c := 1)
      simpa using h4
    have h5 : z % (M : Int) = z + M := by
      rw [← h3, Int.emod_eq_of_lt (by omega) (by omega)]
    rw [h5]
    omega

/-! ### Counting helpers and their append laws -/

theorem retireCount_append (l1 l2 : List RcOp) :
    retireCount (l1 ++ l2) = retireCount l1 + retireCount l2 := by
  simp [retireCount, List.countP_append]

theorem relCount_append (l1 l2 : List RcOp) :
    relCount (l1 ++ l2) = relCount l1 + relCount l2 := by
  simp [relCount, List.countP_append]

theorem retireSum_append (l1 l2 : List RcOp) :
    retireSum (l1 ++ l2) = retireSum l1 + retireSum l2 := by
  simp [retireSum, List.map_append, List.sum_append]

theorem retireCount_nil : retireCount [] = 0 := rfl

theorem relCount_nil : relCount [] = 0 := rfl

theorem retireSum_nil : retireSum [] = 0 := rfl

theorem retireCount_retire (e : Nat) : retireCount [RcOp.retire e] = 1 := rfl

theorem retireCount_release : retireCount [RcOp.release] = 0 := rfl

theorem relCount_retire (e : Nat) : relCount [RcOp.retire e] = 0 := rfl

theorem relCount_release : relCount [RcOp.release] = 1 := rfl

theorem retireSum_retire (e : Nat) : retireSum [RcOp.retire e] = e - 2 := by
  simp [retireSum, retireCorr]

theorem retireSum_release : retireSum [RcOp.release] = 0 := rfl

theorem length_eq_retireCount_add_relCount (l : List RcOp) :
    l.length = retireCount l + relCount l := by
  induction l with
  | nil => rfl
  | cons op rest ih =>
      cases op <;> simp [retireCount, relCount, List.countP_cons] at * <;> omega

theorem retireSum_eq_zero_of_retireCount_eq_zero (l : List RcOp)
    (h : retireCount l = 0) : retireSum l = 0 := by
  induction l with
  | nil => rfl
  | cons op rest ih =>
      cases op with
      | retire e => simp [retireCount, List.countP_cons] at h
      | release =>
          simp [retireCount, List.countP_cons] at h ih ⊢
          simp [retireSum, retireCorr, List.map_cons, List.sum_cons] at ih ⊢
          exact ih h

theorem retireCount_replicate_release (n : Nat) :
    retireCount (List.replicate n RcOp.release) = 0 := by
  induction n with
  | zero => rfl
  | succ n ih => simpa [List.replicate_succ, retireCount, List.countP_cons] using ih

theorem relCount_replicate_release (n : Nat) :
    relCount (List.replicate n RcOp.release) = n := by
  induction n with
  | zero => rfl
  | succ n ih =>
      simp [List.replicate_succ, relCount, List.countP_cons] at ih ⊢
      omega

theorem retireSum_replicate_release (n : Nat) :
    retireSum (List.replicate n RcOp.release) = 0 := by
  induction n with
  | zero => rfl
  | succ n ih => simpa [List.replicate_succ, retireSum, retireCorr] using ih

theorem retireCount_cons_retire (e : Nat) (l : List RcOp) :
    retireCount (RcOp.retire e :: l) = retireCount l + 1 := by
  simp [retireCount, List.countP_cons]

theorem retireCount_cons_release (l : List RcOp) :
    retireCount (RcOp.release :: l) = retireCount l := by
  simp [retireCount, List.countP_cons]

theorem relCount_cons_retire (e : Nat) (l : List RcOp) :
    relCount (RcOp.retire e :: l) = relCount l := by
  simp [relCount, List.countP_cons]

theorem relCount_cons_release (l : List RcOp) :
    relCount (RcOp.release :: l) = relCount l + 1 := by
  simp [relCount, List.countP_cons]

theorem retireSum_cons (op : RcOp) (l : List RcOp) :
    retireSum (op :: l) = retireCorr op + retireSum l := by
  simp [retireSum, List.map_cons, List.sum_cons]

theorem retireCount_rcTrace (e1 e2 : Nat) : retireCount (rcTrace e1 e2) = 2 := by
  simp [rcTrace, retireCount_cons_retire, retireCount_replicate_release]

theorem relCount_rcTrace (e1 e2 : Nat) :
    relCount (rcTrace e1 e2) = (e1 - 2) + (e2 - 2) := by
  simp [rcTrace, relCount_cons_retire, relCount_replicate_release]

theorem retireSum_rcTrace (e1 e2 : Nat) :
    retireSum (rcTrace e1 e2) = (e1 - 2) + (e2 - 2) := by
  simp [rcTrace, retireSum_cons, retireCorr, retireSum_replicate_release]

/-! ### Characterising a protocol run -/

/-- The value of the internal count after running `l` from the initial
counter: the signed sum of retire corrections minus releases, reduced
modulo `2 ^ w` as the bit-field arithmetic does. -/
def icSpec (w : Nat) (l : List RcOp) : Nat :=
  (((retireSum l : Int) - (relCount l : Int)) % ((2 ^ w : Nat) : Int)).toNat

theorem rcRun_append (w : Nat) (c : node_counter) (l1 l2 : List RcOp) :
    rcRun w c (l1 ++ l2) = rcRun w (rcRun w c l1) l2 := by
  simp [rcRun, List.foldl_append]

theorem goodOps_of_append_left {l1 l2 : List RcOp} (h : goodOps (l1 ++ l2)) :
    goodOps l1 := fun e he => h e (List.mem_append_left _ he)

theorem goodOps_of_append_right {l1 l2 : List RcOp} (h : goodOps (l1 ++ l2)) :
    goodOps l2 := fun e he => h e (List.mem_append_right _ he)

theorem rcRun_spec (w : Nat) (l : List RcOp) (hg : goodOps l)
    (hrc : retireCount l ≤ 2) :
    rcRun w initialCounter l =
      { internal_count := icSpec w l, external_counters := 2 - retireCount l } := by
  have hM : 0 < 2 ^ w := pow_pos (by norm_num) w
  induction l using List.reverseRecOn with
  | nil =>
      simp [rcRun, icSpec, retireSum_nil, relCount_nil, retireCount_nil,
        initialCounter]
  | append_singleton l op ih =>
      have hgl : goodOps l := goodOps_of_append_left hg
      have hrcl : retireCount l ≤ 2 := by
        rw [retireCount_append] at hrc; omega
      rw [rcRun_append, ih hgl hrcl]
      cases op with
      | retire e =>
          have he : 2 ≤ e := hg e (List.mem_append_right _ (by simp))
          have hrc1 : retireCount l ≤ 1 := by
            rw [retireCount_append, retireCount_retire] at hrc; omega
          show free_external_count w (e : Int) _ = _
          unfold free_external_count
          congr 1
          · show ((((icSpec w l : Nat) : Int) + ((e : Int) - 2)) %
                ((2 ^ w : Nat) : Int)).toNat = icSpec w (l ++ [RcOp.retire e])
            unfold icSpec
            rw [wrapAdd_eq _ _ _ hM]
            congr 2
            rw [retireSum_append, relCount_append, retireSum_retire, relCount_retire]
            push_cast [he]
            ring
          · show (2 - retireCount l + 3) % 4 = 2 - retireCount (l ++ [RcOp.retire e])
            rw [retireCount_append, retireCount_retire]
            omega
      | release =>
          show release_reference w _ = _
          unfold release_reference
          congr 1
          · show (icSpec w l + (2 ^ w - 1)) % 2 ^ w = icSpec w (l ++ [RcOp.release])
            unfold icSpec
            rw [wrapDec_eq _ _ hM]
            congr 2
            rw [retireSum_append, relCount_append, retireSum_release, relCount_release]
            push_cast
            ring
          · show 2 - retireCount l = 2 - retireCount (l ++ [RcOp.release])
            rw [retireCount_append, retireCount_release]
            omega

/-- At any split `p ++ q` of a legal operation order, the counter pair after
`p` is `(0, 0)` exactly when `q` is empty: the node dies at the last
operation and at no earlier one (given fewer than `2 ^ w` losing checkouts,
so the modular internal count cannot alias zero early). -/
theorem dealloc_iff_at_end (w e1 e2 : Nat) (p q : List RcOp)
    (h1 : 2 ≤ e1) (h2 : 2 ≤ e2) (hb : (e1 - 2) + (e2 - 2) < 2 ^ w)
    (hperm : List.Perm (p ++ q) (rcTrace e1 e2)) :
    deallocates (rcRun w initialCounter p) ↔ q = [] := by
  have hM : 0 < 2 ^ w := pow_pos (by norm_num) w
  -- totals over the whole list, transported along the permutation
  have hrcT : retireCount (p ++ q) = 2 := by
    have h := hperm.countP_eq
      (fun op => match op with | RcOp.retire _ => true | RcOp.release => false)
    have h2 := retireCount_rcTrace e1 e2
    unfold retireCount at h2 ⊢
    exact h.trans h2
  have hrlT : relCount (p ++ q) = (e1 - 2) + (e2 - 2) := by
    have h := hperm.countP_eq
      (fun op => match op with | RcOp.retire _ => false | RcOp.release => true)
    have h2 := relCount_rcTrace e1 e2
    unfold relCount at h2 ⊢
    exact h.trans h2
  have hrsT : retireSum (p ++ q) = (e1 - 2) + (e2 - 2) := by
    have h := (hperm.map retireCorr).sum_eq
    have h2 := retireSum_rcTrace e1 e2
    unfold retireSum at h2 ⊢
    exact h.trans h2
  have hgood : goodOps (p ++ q) := by
    intro e he
    have he2 : RcOp.retire e ∈ rcTrace e1 e2 := hperm.mem_iff.mp he
    simp only [rcTrace, List.mem_cons] at he2
    rcases he2 with h | h | h
    · cases h; omega
    · cases h; omega
    · exact absurd (List.eq_of_mem_replicate h) (by simp)
  rw [retireCount_append] at hrcT
  rw [relCount_append] at hrlT
  rw [retireSum_append] at hrsT
  have hgp : goodOps p := goodOps_of_append_left hgood
  have hrcp : retireCount p ≤ 2 := by omega
  have hspA : retireSum p < 2 ^ w := by omega
  have hkpA : relCount p < 2 ^ w := by omega
  rw [rcRun_spec w p hgp hrcp]
  unfold deallocates icSpec
  dsimp only
  have hlo : -(((2 ^ w : Nat) : Int)) < (retireSum p : Int) - (relCount p : Int) := by
    omega
  have hhi : (retireSum p : Int) - (relCount p : Int) < ((2 ^ w : Nat) : Int) := by
    omega
  have hzero := emod_toNat_eq_zero_iff
    ((retireSum p : Int) - (relCount p : Int)) (2 ^ w) hM hlo hhi
  constructor
  · rintro ⟨hic, hec⟩
    -- external counter zero forces both retires into p
    have hrp2 : retireCount p = 2 := by omega
    have hrq0 : retireCount q = 0 := by omega
    have hsq0 : retireSum q = 0 :=
      retireSum_eq_zero_of_retireCount_eq_zero q hrq0
    -- internal count zero forces all releases into p
    have hz := hzero.mp hic
    have hkq : relCount q = 0 := by omega
    have hlen : q.length = 0 := by
      rw [length_eq_retireCount_add_relCount]; omega
    exact List.length_eq_zero.mp hlen
  · rintro rfl
    rw [retireCount_nil] at hrcT
    rw [relCount_nil] at hrlT
    rw [retireSum_nil] at hrsT
    refine ⟨hzero.mpr (by omega), by omega⟩

/-- Counting deallocations over the remaining suffix `q` of a legal order:
exactly one deallocation happens in any nonempty remainder. -/
theorem deallocCount_suffix (w e1 e2 : Nat)
    (h1 : 2 ≤ e1) (h2 : 2 ≤ e2) (hb : (e1 - 2) + (e2 - 2) < 2 ^ w) :
    ∀ (q p : List RcOp), List.Perm (p ++ q) (rcTrace e1 e2) →
      deallocCount w (rcRun w initialCounter p) q = if q = [] then 0 else 1 := by
  intro q
  induction q with
  | nil => intro p _; simp [deallocCount]
  | cons op rest ih =>
      intro p hperm
      have hassoc : (p ++ [op]) ++ rest = p ++ (op :: rest) := by simp
      have hperm2 : List.Perm ((p ++ [op]) ++ rest) (rcTrace e1 e2) := by
        rw [hassoc]; exact hperm
      have hstep : rcStep w (rcRun w initialCounter p) op
          = rcRun w initialCounter (p ++ [op]) := by
        rw [rcRun_append]; rfl
      have hind := dealloc_iff_at_end w e1 e2 (p ++ [op]) rest h1 h2 hb hperm2
      have htail := ih (p ++ [op]) hperm2
      cases rest with
      | nil =>
          simp only [deallocCount, hstep]
          rw [if_pos (hind.mpr rfl)]
          simp [deallocCount]
      | cons r rs =>
          simp only [deallocCount, hstep]
          rw [if_neg (fun hd => by simpa using hind.mp hd)]
          simpa using htail

/-- C2 (amended): for every node whose two retires carry external counts
`e1, e2 ≥ 2` and whose losing checkouts contribute `(e1-2)+(e2-2)` releases,
provided the number of losing checkouts is below `2 ^ w` (always true in
practice for the helping variant's 30-bit field, but violable for the
non-helping variant's 2-bit field), every interleaving of the retire
(`free_external_count`, the single combined CAS update adding `e - 2` to
`internal_count` and decrementing `external_counters`) and release
(`release_reference`) operations deallocates the node exactly once, exactly
at the operation that installs the final pair `(0, 0)`, and no earlier
operation installs `(0, 0)`. -/
theorem retire_release_deallocates_exactly_once
    (w e1 e2 : Nat) (trace : List RcOp)
    (h1 : 2 ≤ e1) (h2 : 2 ≤ e2) (hb : (e1 - 2) + (e2 - 2) < 2 ^ w)
    (hperm : List.Perm trace (rcTrace e1 e2)) :
    deallocCount w initialCounter trace = 1 ∧
    rcRun w initialCounter trace
      = { internal_count := 0, external_counters := 0 } ∧
    (∀ p q, trace = p ++ q → q ≠ [] →
      ¬ deallocates (rcRun w initialCounter p)) := by
  have hne : trace ≠ [] := by
    intro h
    have hlen := hperm.length_eq
    rw [h] at hlen
    simp [rcTrace] at hlen
  have hperm0 : List.Perm ([] ++ trace) (rcTrace e1 e2) := by simpa using hperm
  refine ⟨?_, ?_, ?_⟩
  · have h := deallocCount_suffix w e1 e2 h1 h2 hb trace [] hperm0
    rw [if_neg hne] at h
    simpa [rcRun] using h
  · have hd := (dealloc_iff_at_end w e1 e2 trace [] h1 h2 hb
      (by simpa using hperm)).mpr rfl
    unfold deallocates at hd
    cases hr : rcRun w initialCounter trace with
    | mk ic ec =>
        rw [hr] at hd
        dsimp only at hd
        rw [hd.1, hd.2]
  · intro p q hpq hq hd
    exact hq ((dealloc_iff_at_end w e1 e2 p q h1 h2 hb
      (by rw [← hpq]; exact hperm)).mp hd)

/-- C2 (witness): a concrete legal interleaving (retire with external count 2,
then one losing release, then retire with external count 3) deallocates the
node exactly once and leaves the counter at `(0, 0)`. -/
theorem retire_release_deallocates_exactly_once_witness :
    deallocCount 30 initialCounter
      [RcOp.retire 2, RcOp.release, RcOp.retire 3] = 1 ∧
    rcRun 30 initialCounter [RcOp.retire 2, RcOp.release, RcOp.retire 3]
      = { internal_count := 0, external_counters := 0 } :=
  ⟨(retire_release_deallocates_exactly_once 30 2 3
      [RcOp.retire 2, RcOp.release, RcOp.retire 3]
      (by norm_num) (by norm_num) (by norm_num) (by decide)).1,
   (retire_release_deallocates_exactly_once 30 2 3
      [RcOp.retire 2, RcOp.release, RcOp.retire 3]
      (by norm_num) (by norm_num) (by norm_num) (by decide)).2.1⟩

/-- C2 (counterexample): with the non-helping variant's 2-bit
`internal_count` field, the perfectly legal operation order of two retires
with external count 4 followed by the four matching releases installs
`(0, 0)` twice — the node is deallocated twice, refuting
"every node is deallocated exactly once" as stated for this variant. -/
theorem two_bit_counter_double_dealloc :
    List.Perm (rcTrace 4 4) (rcTrace 4 4) ∧
    deallocCount widthNonHelping initialCounter (rcTrace 4 4) = 2 := by
  constructor
  · exact List.Perm.refl _
  · decide

/-- C9 (counterexample): the claim that no `release_reference` step ever
wraps `internal_count` is false: in the legal interleaving where a losing
thread releases before either winner retires (a permutation of the canonical
trace for external counts 3 and 2), the very first step applies
`release_reference` to the initial counter `(0, 2)` and wraps
`internal_count` from `0` to `2 ^ 30 - 1`. -/
theorem release_on_zero_wraps :
    List.Perm [RcOp.release, RcOp.retire 3, RcOp.retire 2] (rcTrace 3 2) ∧
    (rcStep 30 initialCounter RcOp.release).internal_count = 2 ^ 30 - 1 := by
  constructor
  · decide
  · decide

/-- C9 (amended): `release_reference` updates `internal_count` by modular
(bit-field) arithmetic, not signed arithmetic: the result stays in
`[0, 2 ^ w)` (so it is never negative as a representation), but a release
applied at `internal_count = 0` wraps to `2 ^ w - 1` instead of asserting;
for positive counts it is an ordinary decrement.  `external_counters` is
untouched. -/
theorem release_reference_decrement_is_modular (w ic ec : Nat)
    (h : ic < 2 ^ w) :
    (release_reference w ⟨ic, ec⟩).internal_count
      = (if ic = 0 then 2 ^ w - 1 else ic - 1) ∧
    (release_reference w ⟨ic, ec⟩).internal_count < 2 ^ w ∧
    (release_reference w ⟨ic, ec⟩).external_counters = ec := by
  have hM : 0 < 2 ^ w := pow_pos (by norm_num) w
  unfold release_reference
  dsimp only
  refine ⟨?_, Nat.mod_lt _ hM, rfl⟩
  rcases Nat.eq_zero_or_pos ic with h0 | h0
  · subst h0
    rw [if_pos rfl, Nat.zero_add, Nat.mod_eq_of_lt (by omega)]
  · rw [if_neg (by omega)]
    have hsplit : ic + (2 ^ w - 1) = (ic - 1) + 1 * 2 ^ w := by omega
    rw [hsplit, Nat.add_mul_mod_self_right, Nat.mod_eq_of_lt (by omega)]

/-- C9 (witness): instantiating the modular-decrement description at the
initial counter of the helping variant: a release at `internal_count = 0`
yields `2 ^ 30 - 1`. -/
theorem release_reference_decrement_is_modular_witness :
    (release_reference 30 ⟨0, 2⟩).internal_count
      = (if (0 : Nat) = 0 then 2 ^ 30 - 1 else 0 - 1) ∧
    (release_reference 30 ⟨0, 2⟩).internal_count < 2 ^ 30 ∧
    (release_reference 30 ⟨0, 2⟩).external_counters = 2 :=
  release_reference_decrement_is_modular 30 0 2 (by norm_num)

/-- C10: the two variants give the packed internal counter different widths —
the helping variant declares a 30-bit field while the non-helping variant
declares `sizeof(int) - 2 = 2` bits — so in the non-helping variant every
`internal_count` update is arithmetic modulo 4: `release_reference` applied
at `internal_count = 0` produces 3, `free_external_count` reduces its
combined update modulo 4, and the deallocation test
`internal_count == 0 && external_counters == 0` is evaluated on these
modulo-4 values. -/
theorem nonhelping_counter_width_modulo_four :
    widthHelping = 30 ∧ widthNonHelping = 2 ∧
    (∀ ic ec : Nat,
      (release_reference widthNonHelping ⟨ic, ec⟩).internal_count
        = (ic + 3) % 4) ∧
    (∀ ec : Nat,
      (release_reference widthNonHelping ⟨0, ec⟩).internal_count = 3) ∧
    (∀ (e : Int) (ic ec : Nat),
      (free_external_count widthNonHelping e ⟨ic, ec⟩).internal_count
        = (((ic : Int) + (e - 2)) % 4).toNat) ∧
    (∀ (e : Int) (ic ec : Nat),
      deallocates (free_external_count widthNonHelping e ⟨ic, ec⟩)
        ↔ (((ic : Int) + (e - 2)) % 4).toNat = 0 ∧ (ec + 3) % 4 = 0) := by
  refine ⟨rfl, rfl, fun ic ec => rfl, fun ec => rfl, fun e ic ec => rfl,
    fun e ic ec => Iff.rfl⟩

/-! ### A sequential heap model of the queue

The queue state is an address-indexed heap of nodes plus the two shared
counted-pointer slots.  Addresses are `Nat`, with `0` playing the role of
`nullptr`.  Single-threaded executions make every CAS succeed on its first
attempt; the definitions keep the code's CAS tests and retry branches, with
fuel bounding the retries. -/

/-- `struct counted_node_pointer`: an `int external_count` paired with a node
pointer (modelled as a heap address, `0` for null). -/
structure counted_node_pointer where
  external_count : Int
  node_ptr : Nat
deriving DecidableEq

/-- `struct node`: the payload slot (`atomic<T*>`, `none` for null), the
packed reference counter, and the forward link. -/
structure node (α : Type) where
  data : Option α
  node_count : node_counter
  next : counted_node_pointer
deriving DecidableEq

/-- `node::node()`: null payload, counter `(0, 2)`, null next link. -/
def node.init {α : Type} : node α :=
  { data := none, node_count := initialCounter
    next := { external_count := 0, node_ptr := 0 } }

/-- The allocated-node heap: an association list from address to node. -/
def hGet {α : Type} : List (Nat × node α) → Nat → Option (node α)
  | [], _ => none
  | (b, n) :: rest, a => if a = b then some n else hGet rest a

/-- Overwrite the node stored at an address. -/
def hSet {α : Type} : List (Nat × node α) → Nat → node α → List (Nat × node α)
  | [], _, _ => []
  | (b, n) :: rest, a, m => if a = b then (b, m) :: rest else (b, n) :: hSet rest a m

/-- Deallocate the node stored at an address. -/
def hDel {α : Type} : List (Nat × node α) → Nat → List (Nat × node α)
  | [], _ => []
  | (b, n) :: rest, a => if a = b then rest else (b, n) :: hDel rest a

/-- The whole queue state: heap, the `head` and `tail` shared slots, a fresh
address counter for `new`, and the list of addresses passed to `delete`
(so that exactly-once deallocation is observable). -/
structure QState (α : Type) where
  heap : List (Nat × node α)
  head : counted_node_pointer
  tail : counted_node_pointer
  nextAddr : Nat
  freed : List Nat
deriving DecidableEq

/-- `MPMCQueue()` (both variants): one sentinel node, stored with external
count 1 in both `head` and `tail`. -/
def initQ (α : Type) : QState α :=
  { heap := [(1, node.init)]
    head := { external_count := 1, node_ptr := 1 }
    tail := { external_count := 1, node_ptr := 1 }
    nextAddr := 2
    freed := [] }

/-- `increase_ref_count(old_head, head)` in a single-threaded run: the CAS
succeeds at once, incrementing the slot's external count; the returned
snapshot carries the updated count. -/
def acquireHead {α : Type} (s : QState α) : counted_node_pointer × QState α :=
  let snap : counted_node_pointer :=
    { external_count := s.head.external_count + 1, node_ptr := s.head.node_ptr }
  (snap, { s with head := snap })

/-- `increase_ref_count(old_tail, tail)` in a single-threaded run. -/
def acquireTail {α : Type} (s : QState α) : counted_node_pointer × QState α :=
  let snap : counted_node_pointer :=
    { external_count := s.tail.external_count + 1, node_ptr := s.tail.node_ptr }
  (snap, { s with tail := snap })

/-- `node::release_reference` acting on the heap: apply the counter update
and `delete this` when the result is `(0, 0)`. -/
def heapReleaseRef {α : Type} (w : Nat) (s : QState α) (a : Nat) : QState α :=
  match hGet s.heap a with
  | none => s
  | some n =>
      let c := release_reference w n.node_count
      if deallocates c then
        { s with heap := hDel s.heap a, freed := a :: s.freed }
      else
        { s with heap := hSet s.heap a { n with node_count := c } }

/-- `free_external_count(snapshot)` acting on the heap: apply the combined
counter update for the snapshot's external count and `delete` the node when
the result is `(0, 0)`. -/
def heapFreeExternal {α : Type} (w : Nat) (s : QState α)
    (snap : counted_node_pointer) : QState α :=
  match hGet s.heap snap.node_ptr with
  | none => s
  | some n =>
      let c := free_external_count w snap.external_count n.node_count
      if deallocates c then
        { s with heap := hDel s.heap snap.node_ptr, freed := snap.node_ptr :: s.freed }
      else
        { s with heap := hSet s.heap snap.node_ptr { n with node_count := c } }

/-! #### Non-helping variant (part_000) -/

/-- `push_impl` of the non-helping variant, after the node at `addr` has been
allocated: acquire tail, CAS the payload slot from null, link the new
sentinel, exchange `tail`, retire the exchanged snapshot; on a lost payload
CAS, release and retry. -/
def pushImplNH {α : Type} : Nat → QState α → Nat → α → Option (QState α)
  | 0, _, _, _ => none
  | fuel + 1, s, addr, v =>
      let new_tail : counted_node_pointer := { external_count := 1, node_ptr := addr }
      let acq := acquireTail s
      let old_tail := acq.1
      let s1 := acq.2
      match hGet s1.heap old_tail.node_ptr with
      | none => none
      | some n =>
          if n.data.isNone then
            -- data CAS wins; then: old_tail.node_ptr->next = new_tail
            let n1 := { n with data := some v, next := new_tail }
            let s2 := { s1 with heap := hSet s1.heap old_tail.node_ptr n1 }
            -- old_tail = tail.exchange(new_tail); free_external_count(old_tail)
            let exch := s2.tail
            let s3 := { s2 with tail := new_tail }
            some (heapFreeExternal widthNonHelping s3 exch)
          else
            pushImplNH fuel (heapReleaseRef widthNonHelping s1 old_tail.node_ptr) addr v

/-- `push` of the non-helping variant: allocate the node, construct the
payload, run `push_impl`. -/
def pushNH {α : Type} (fuel : Nat) (s : QState α) (v : α) : Option (QState α) :=
  let addr := s.nextAddr
  pushImplNH fuel
    { s with heap := (addr, node.init) :: s.heap, nextAddr := addr + 1 } addr v

/-- `pop` of the non-helping variant: acquire head; if the checked-out node
is the tail node the queue is empty (release, return null); otherwise CAS
`head` to the node's `next`; on success read (`data.load()`, not cleared)
the payload and retire the old snapshot; on failure release and retry. -/
def popNH {α : Type} : Nat → QState α → Option (Option α × QState α)
  | 0, _ => none
  | fuel + 1, s =>
      let acq := acquireHead s
      let old_head := acq.1
      let s1 := acq.2
      match hGet s1.heap old_head.node_ptr with
      | none => none
      | some n =>
          if old_head.node_ptr = s1.tail.node_ptr then
            some (none, heapReleaseRef widthNonHelping s1 old_head.node_ptr)
          else
            if s1.head = old_head then
              let s2 := { s1 with head := n.next }
              some (n.data, heapFreeExternal widthNonHelping s2 old_head)
            else
              popNH fuel (heapReleaseRef widthNonHelping s1 old_head.node_ptr)

/-- `~MPMCQueue()` of the non-helping variant, the head-to-tail walk: for
every node before the tail, wrap and destroy the payload and delete the node
shell; finally delete the tail sentinel.  Returns the destroyed payloads in
walk order together with the final state. -/
def dtorWalk {α : Type} : Nat → Nat → Nat → QState α → List α →
    Option (List α × QState α)
  | 0, _, _, _, _ => none
  | fuel + 1, hp, tp, s, acc =>
      if hp = tp then
        some (acc.reverse, { s with heap := hDel s.heap hp, freed := hp :: s.freed })
      else
        match hGet s.heap hp with
        | none => none
        | some n =>
            let acc2 := match n.data with | some v => v :: acc | none => acc
            dtorWalk fuel n.next.node_ptr tp
              { s with heap := hDel s.heap hp, freed := hp :: s.freed } acc2

/-- `~MPMCQueue()` of the non-helping variant. -/
def destructorNH {α : Type} (fuel : Nat) (s : QState α) :
    Option (List α × QState α) :=
  dtorWalk fuel s.head.node_ptr s.tail.node_ptr s []

/-! #### Helping variant (MPMCQueue.h) -/

/-- `set_tail_node` in a single-threaded run: the CAS on `tail` either
succeeds (then this thread retires the old snapshot), or fails against a
tail whose remembered node pointer still matches (then the refreshed CAS
succeeds and the refreshed snapshot is retired), or fails against a new
node (then this thread releases its remembered reference). -/
def setTailSeq {α : Type} (s : QState α)
    (old_tail new_tail : counted_node_pointer) : QState α :=
  let saved := old_tail.node_ptr
  if s.tail = old_tail then
    heapFreeExternal widthHelping { s with tail := new_tail } old_tail
  else
    if s.tail.node_ptr = saved then
      heapFreeExternal widthHelping { s with tail := new_tail } s.tail
    else
      heapReleaseRef widthHelping s saved

/-- `push_impl` of the helping variant: the payload-CAS winner links the new
sentinel (unless a helper already did) and advances tail; a loser helps
install the dummy node, advances tail, and retries with a fresh node. -/
def pushImplH {α : Type} : Nat → QState α → Nat → α → Option (QState α)
  | 0, _, _, _ => none
  | fuel + 1, s, addr, v =>
      let new_tail : counted_node_pointer := { external_count := 1, node_ptr := addr }
      let acq := acquireTail s
      let old_tail := acq.1
      let s1 := acq.2
      match hGet s1.heap old_tail.node_ptr with
      | none => none
      | some n =>
          if n.data.isNone then
            -- winner installed the payload
            let n1 := { n with data := some v }
            let s2 := { s1 with heap := hSet s1.heap old_tail.node_ptr n1 }
            if n.next = { external_count := 0, node_ptr := 0 } then
              let n2 := { n1 with next := new_tail }
              let s3 := { s2 with heap := hSet s2.heap old_tail.node_ptr n2 }
              some (setTailSeq s3 old_tail new_tail)
            else
              -- another thread already set the dummy node; ours is freed
              let s3 := { s2 with heap := hDel s2.heap addr, freed := addr :: s2.freed }
              some (setTailSeq s3 old_tail n.next)
          else
            -- help the winner by installing the dummy next node
            if n.next = { external_count := 0, node_ptr := 0 } then
              let n2 := { n with next := new_tail }
              let s2 := { s1 with heap := hSet s1.heap old_tail.node_ptr n2 }
              -- node ownership passed to the queue; allocate a replacement
              let addr2 := s2.nextAddr
              let s3 := { s2 with heap := (addr2, node.init) :: s2.heap
                                  nextAddr := addr2 + 1 }
              pushImplH fuel (setTailSeq s3 old_tail new_tail) addr2 v
            else
              pushImplH fuel (setTailSeq s1 old_tail n.next) addr v

/-- `push` of the helping variant: construct the payload, then `push_impl`
allocates the node and runs the loop. -/
def pushH {α : Type} (fuel : Nat) (s : QState α) (v : α) : Option (QState α) :=
  let addr := s.nextAddr
  pushImplH fuel
    { s with heap := (addr, node.init) :: s.heap, nextAddr := addr + 1 } addr v

/-- `pop` of the helping variant: as in the non-helping variant but the
payload is extracted with `data.exchange(nullptr)`, clearing the slot. -/
def popH {α : Type} : Nat → QState α → Option (Option α × QState α)
  | 0, _ => none
  | fuel + 1, s =>
      let acq := acquireHead s
      let old_head := acq.1
      let s1 := acq.2
      match hGet s1.heap old_head.node_ptr with
      | none => none
      | some n =>
          if old_head.node_ptr = s1.tail.node_ptr then
            some (none, heapReleaseRef widthHelping s1 old_head.node_ptr)
          else
            if s1.head = old_head then
              let s2 := { s1 with head := n.next }
              let s3 := { s2 with
                heap := hSet s2.heap old_head.node_ptr { n with data := none } }
              some (n.data, heapFreeExternal widthHelping s3 old_head)
            else
              popH fuel (heapReleaseRef widthHelping s1 old_head.node_ptr)

/-- `~MPMCQueue()` of the helping variant: the entire body is commented out
in the source, so destruction deallocates nothing and destroys no payload. -/
def destructorH {α : Type} (s : QState α) : QState α := s

/-! #### Sequential runners and allocation-checked pushes -/

/-- Run a list of non-helping pushes sequentially, each completed before the
next starts. -/
def pushesNH {α : Type} (vs : List α) (s : QState α) : Option (QState α) :=
  vs.foldlM (fun s v => pushNH 2 s v) s

/-- Run `n` non-helping pops sequentially, collecting the results. -/
def popsNH {α : Type} : Nat → QState α → Option (List (Option α) × QState α)
  | 0, s => some ([], s)
  | n + 1, s => do
      let r ← popNH 2 s
      let rest ← popsNH n r.2
      return (r.1 :: rest.1, rest.2)

/-- Push each value of `vs` then pop `n` times, non-helping variant. -/
def fifoNH {α : Type} (vs : List α) (n : Nat) : Option (List (Option α)) := do
  let s ← pushesNH vs (initQ α)
  let r ← popsNH n s
  return r.1

/-- Run a list of helping pushes sequentially. -/
def pushesH {α : Type} (vs : List α) (s : QState α) : Option (QState α) :=
  vs.foldlM (fun s v => pushH 2 s v) s

/-- Run `n` helping pops sequentially, collecting the results. -/
def popsH {α : Type} : Nat → QState α → Option (List (Option α) × QState α)
  | 0, s => some ([], s)
  | n + 1, s => do
      let r ← popH 2 s
      let rest ← popsH n r.2
      return (r.1 :: rest.1, rest.2)

/-- Push each value of `vs` then pop `n` times, helping variant. -/
def fifoH {α : Type} (vs : List α) (n : Nat) : Option (List (Option α)) := do
  let s ← pushesH vs (initQ α)
  let r ← popsH n s
  return r.1

/-- Non-helping `push` with fallible allocation: `an` is whether `new node`
succeeds, `ad` whether `new T{...}` succeeds (the node is allocated first in
this variant).  A failed allocation throws before the queue is touched, so
the error carries the unchanged state; a failed payload construction frees
the node again via its `unique_ptr`. -/
def pushCheckedNH {α : Type} (an ad : Bool) (fuel : Nat) (s : QState α)
    (v : α) : Except (QState α) (Option (QState α)) :=
  if an = false then Except.error s
  else if ad = false then Except.error s
  else Except.ok (pushNH fuel s v)

/-- Helping `push` with fallible allocation: the payload is constructed
first, then `push_impl` allocates the node; either failure propagates before
the queue is touched. -/
def pushCheckedH {α : Type} (ad an : Bool) (fuel : Nat) (s : QState α)
    (v : α) : Except (QState α) (Option (QState α)) :=
  if ad = false then Except.error s
  else if an = false then Except.error s
  else Except.ok (pushH fuel s v)

/-! #### The `set_tail_node` loop against an interference trace

For C8 the tail-advance loop is modelled against an explicit trace of CAS
outcomes: each attempt either succeeds or fails having observed some other
value in `tail`.  The loop's own state is `old_tail`, refreshed by every
failed CAS exactly as `compare_exchange_weak` does. -/

/-- One outcome of a `tail.compare_exchange_weak` attempt. -/
inductive TailCasEvent where
  | success
  | fail (observed : counted_node_pointer)
deriving DecidableEq

/-- What `set_tail_node` does after its loop: retire the final `old_tail`
snapshot via `free_external_count`, or release the remembered node via
`release_reference`. -/
inductive TailAction where
  | retire (snapshot : counted_node_pointer)
  | release (p : Nat)
deriving DecidableEq

/-- The loop
`while(!tail.compare_exchange_weak(old_tail,new_tail) && old_tail.node_ptr == saved_ptr);`
run against a trace of CAS outcomes.  Returns the final `old_tail` and
whether the loop exited through a CAS success; `none` if the trace ends
while the loop would still be running. -/
def setTailLoop : List TailCasEvent → counted_node_pointer → Nat →
    Option (counted_node_pointer × Bool)
  | [], _, _ => none
  | TailCasEvent.success :: _, old_tail, _ => some (old_tail, true)
  | TailCasEvent.fail obs :: rest, _, saved =>
      if obs.node_ptr = saved then setTailLoop rest obs saved
      else some (obs, false)

/-- `set_tail_node(old_tail, new_tail)`: remember `old_tail.node_ptr` at
entry, run the loop, then compare the remembered node pointer with the final
`old_tail`'s: on a match this thread performed the swap and retires the old
snapshot, otherwise it releases the remembered node.  The returned flag
records whether the loop exited through a CAS success. -/
def set_tail_node (events : List TailCasEvent)
    (old_tail new_tail : counted_node_pointer) : Option (Bool × TailAction) :=
  let saved := old_tail.node_ptr
  match setTailLoop events old_tail saved with
  | none => none
  | some fe =>
      if saved = fe.1.node_ptr then some (fe.2, TailAction.retire fe.1)
      else some (fe.2, TailAction.release saved)

/-! #### Heap lookup lemmas and snapshot projections -/

theorem hGet_hSet_self {α : Type} (h : List (Nat × node α)) (a : Nat)
    (m : node α) (hsome : (hGet h a).isSome) :
    hGet (hSet h a m) a = some m := by
  induction h with
  | nil => simp [hGet] at hsome
  | cons p rest ih =>
      obtain ⟨b, n⟩ := p
      by_cases hab : a = b
      · simp [hGet, hSet, hab]
      · simp [hGet, hSet, hab] at hsome ⊢
        exact ih hsome

theorem hGet_none_of_not_mem {α : Type} (h : List (Nat × node α)) (a : Nat)
    (ha : a ∉ h.map Prod.fst) : hGet h a = none := by
  induction h with
  | nil => rfl
  | cons p rest ih =>
      obtain ⟨b, n⟩ := p
      simp only [List.map_cons, List.mem_cons] at ha
      push_neg at ha
      rw [hGet, if_neg ha.1]
      exact ih ha.2

theorem hGet_hDel_self {α : Type} (h : List (Nat × node α)) (a : Nat)
    (hnd : (h.map Prod.fst).Nodup) : hGet (hDel h a) a = none := by
  induction h with
  | nil => rfl
  | cons p rest ih =>
      obtain ⟨b, n⟩ := p
      simp only [List.map_cons, List.nodup_cons] at hnd
      by_cases hab : a = b
      · rw [hDel, if_pos hab, hab]
        exact hGet_none_of_not_mem rest b hnd.1
      · rw [hDel, if_neg hab, hGet, if_neg hab]
        exact ih hnd.2

theorem hSet_keys {α : Type} (h : List (Nat × node α)) (a : Nat) (m : node α) :
    (hSet h a m).map Prod.fst = h.map Prod.fst := by
  induction h with
  | nil => rfl
  | cons p rest ih =>
      obtain ⟨b, n⟩ := p
      by_cases hab : a = b
      · rw [hSet, if_pos hab]
        rfl
      · rw [hSet, if_neg hab]
        simp only [List.map_cons, ih]

theorem acquireHead_fst_ptr {α : Type} (s : QState α) :
    (acquireHead s).1.node_ptr = s.head.node_ptr := rfl

theorem acquireHead_heap {α : Type} (s : QState α) :
    (acquireHead s).2.heap = s.heap := rfl

theorem acquireHead_tail {α : Type} (s : QState α) :
    (acquireHead s).2.tail = s.tail := rfl

theorem acquireHead_head {α : Type} (s : QState α) :
    (acquireHead s).2.head = (acquireHead s).1 := rfl

theorem acquireTail_fst_ptr {α : Type} (s : QState α) :
    (acquireTail s).1.node_ptr = s.tail.node_ptr := rfl

theorem acquireTail_heap {α : Type} (s : QState α) :
    (acquireTail s).2.heap = s.heap := rfl

theorem acquireTail_tail {α : Type} (s : QState α) :
    (acquireTail s).2.tail = (acquireTail s).1 := rfl

/-! #### Concrete scenario states -/

/-- A queue of one element `7` where another popper has already checked out
the `head` snapshot once (external count 2) and the element node has been
retired from the tail side (`external_counters = 1`): the raced state under
which a winning pop's retirement does not yet free the node, making the
payload slot's fate observable. -/
def racedState : QState Nat :=
  { heap := [(1, { data := some 7
                   node_count := { internal_count := 0, external_counters := 1 }
                   next := { external_count := 1, node_ptr := 2 } }),
             (2, node.init)]
    head := { external_count := 2, node_ptr := 1 }
    tail := { external_count := 1, node_ptr := 2 }
    nextAddr := 3
    freed := [] }

/-- The state `racedState` reaches after a winning non-helping pop: head
advanced to the sentinel, the old node retired to counter `(1, 0)` — and its
payload slot still populated, because `pop` only did `data.load()`. -/
def racedStateAfterNH : QState Nat :=
  { heap := [(1, { data := some 7
                   node_count := { internal_count := 1, external_counters := 0 }
                   next := { external_count := 1, node_ptr := 2 } }),
             (2, node.init)]
    head := { external_count := 1, node_ptr := 2 }
    tail := { external_count := 1, node_ptr := 2 }
    nextAddr := 3
    freed := [] }

/-- The queue state both variants reach after sequentially pushing `7` into
a fresh queue: the old sentinel (address 1) holds the payload and counter
`(0, 1)`, the new sentinel (address 2) is empty, `tail` points at it. -/
def oneElementQueue : QState Nat :=
  { heap := [(2, node.init),
             (1, { data := some 7
                   node_count := { internal_count := 0, external_counters := 1 }
                   next := { external_count := 1, node_ptr := 2 } })]
    head := { external_count := 1, node_ptr := 1 }
    tail := { external_count := 1, node_ptr := 2 }
    nextAddr := 3
    freed := [] }

/-- What the non-helping destructor leaves of `oneElementQueue`: every node
deallocated, addresses 1 then 2 freed. -/
def dtorResultState : QState Nat :=
  { heap := []
    head := { external_count := 1, node_ptr := 1 }
    tail := { external_count := 1, node_ptr := 2 }
    nextAddr := 3
    freed := [2, 1] }

/-! ### Claim theorems on the queue model -/

/-- C3: on a fresh queue, `push(1); push(2); push(3)` each completed before
the next starts, followed by four sequential `pop()` calls, yields the value
1, then 2, then 3, then the explicit no-value result — in both the helping
and the non-helping variant. -/
theorem sequential_fifo_one_two_three :
    fifoNH [1, 2, 3] 4 = some [some 1, some 2, some 3, none] ∧
    fifoH [1, 2, 3] 4 = some [some 1, some 2, some 3, none] := by
  constructor
  · decide
  · decide

/-- C5 (counterexample): in the non-helping variant a winning pop does not
swap the payload slot back to empty: from `racedState` (one racing checkout
outstanding, so the node is not freed by the winner's retire) the pop
returns the payload `7`, yet the old head node's payload slot still holds
`7` afterwards — `pop` extracted it with `data.load()`, not an exchange. -/
theorem nonhelping_pop_does_not_clear_slot :
    popNH 1 racedState = some (some 7, racedStateAfterNH) ∧
    hGet racedStateAfterNH.heap 1 =
      some { data := some 7
             node_count := { internal_count := 1, external_counters := 0 }
             next := { external_count := 1, node_ptr := 2 } } := by
  constructor
  · decide
  · decide

/-- C6 (code evaluated at the failing input): in the helping variant the
whole destructor body is commented out, so destroying a queue still holding
`K = 1` unpopped element deallocates nothing — the payload `7` and both node
shells remain allocated.  The non-helping variant's destructor, by contrast,
does exactly what the claim describes: it destroys exactly the payload `7`
once, deallocates the walked node and then the trailing sentinel, leaving
the heap empty. -/
theorem helping_destructor_leaks :
    pushH 2 (initQ Nat) 7 = some oneElementQueue ∧
    destructorH oneElementQueue = oneElementQueue ∧
    oneElementQueue.heap ≠ [] ∧
    (destructorH oneElementQueue).freed = [] ∧
    hGet (destructorH oneElementQueue).heap 1 =
      some { data := some 7
             node_count := { internal_count := 0, external_counters := 1 }
             next := { external_count := 1, node_ptr := 2 } } ∧
    pushNH 2 (initQ Nat) 7 = some oneElementQueue ∧
    destructorNH 3 oneElementQueue = some ([7], dtorResultState) ∧
    dtorResultState.heap = [] := by
  refine ⟨by decide, rfl, by decide, rfl, by decide, by decide, by decide, rfl⟩

/-- The loop of `set_tail_node` maintains the invariant that it only keeps
running while `old_tail.node_ptr` equals the remembered pointer: exiting by
CAS success leaves them equal, exiting by a failed CAS that observed a new
node leaves them different. -/
theorem setTailLoop_spec (events : List TailCasEvent) :
    ∀ (cur : counted_node_pointer) (saved : Nat), cur.node_ptr = saved →
      ∀ fe, setTailLoop events cur saved = some fe →
        (fe.2 = true → fe.1.node_ptr = saved) ∧
        (fe.2 = false → fe.1.node_ptr ≠ saved) := by
  induction events with
  | nil =>
      intro cur saved hcur fe h
      simp [setTailLoop] at h
  | cons ev rest ih =>
      intro cur saved hcur fe h
      cases ev with
      | success =>
          simp only [setTailLoop, Option.some.injEq] at h
          rw [← h]
          exact ⟨fun _ => hcur, fun hf => by simp at hf⟩
      | fail obs =>
          by_cases hobs : obs.node_ptr = saved
          · rw [setTailLoop, if_pos hobs] at h
            exact ih obs saved hobs fe h
          · rw [setTailLoop, if_neg hobs] at h
            injection h with h2
            rw [← h2]
            exact ⟨fun hf => by simp at hf, fun _ => hobs⟩

/-- C8: for every interference trace under which the tail-advance loop
terminates, `set_tail_node` decides reclamation by the node identity
remembered at loop entry: if the remembered pointer still equals the final
`old_tail`'s node pointer then the loop exited by performing the tail swap
and this thread retires the old snapshot (`free_external_count`); otherwise
another thread already advanced `tail` and this thread releases its
reference on the remembered node (`release_reference`) instead. -/
theorem set_tail_node_retire_or_release (events : List TailCasEvent)
    (old_tail new_tail : counted_node_pointer) (swapped : Bool)
    (act : TailAction)
    (h : set_tail_node events old_tail new_tail = some (swapped, act)) :
    (swapped = true →
      ∃ final, act = TailAction.retire final ∧
        final.node_ptr = old_tail.node_ptr) ∧
    (swapped = false → act = TailAction.release old_tail.node_ptr) := by
  simp only [set_tail_node] at h
  cases hl : setTailLoop events old_tail old_tail.node_ptr with
  | none => rw [hl] at h; simp at h
  | some fe =>
      rw [hl] at h
      dsimp only at h
      have hspec := setTailLoop_spec events old_tail old_tail.node_ptr rfl fe hl
      by_cases hs : old_tail.node_ptr = fe.1.node_ptr
      · rw [if_pos hs] at h
        simp only [Option.some.injEq, Prod.mk.injEq] at h
        constructor
        · intro _
          exact ⟨fe.1, h.2.symm, hs.symm⟩
        · intro hsw
          rw [hsw] at h
          exact absurd hs.symm (hspec.2 h.1)
      · rw [if_neg hs] at h
        simp only [Option.some.injEq, Prod.mk.injEq] at h
        constructor
        · intro hsw
          rw [hsw] at h
          exact absurd (hspec.1 h.1) (fun he => hs he.symm)
        · intro _
          exact h.2.symm

/-- C8 (witness): a trace where the first CAS fails having observed the same
node with a different external count (the loop must keep going — node
identity, not snapshot equality, is compared) and the second CAS succeeds:
the swap is performed and the old snapshot is retired. -/
theorem set_tail_node_retire_or_release_witness :
    (true = true →
      ∃ final, TailAction.retire { external_count := 5, node_ptr := 1 }
          = TailAction.retire final ∧ final.node_ptr = 1) ∧
    (true = false →
      TailAction.retire { external_count := 5, node_ptr := 1 }
        = TailAction.release 1) :=
  set_tail_node_retire_or_release
    [TailCasEvent.fail { external_count := 5, node_ptr := 1 },
     TailCasEvent.success]
    { external_count := 2, node_ptr := 1 }
    { external_count := 1, node_ptr := 9 }
    true
    (TailAction.retire { external_count := 5, node_ptr := 1 })
    (by decide)

/-- C4: `pop` on a queue whose checked-out head node equals the current tail
node releases its reference and returns the explicit no-value result within
its very first iteration (no blocking, no error signalling); and `pop`
returns no value if and only if, at the emptiness check, the head's node
reference equals the tail's node reference — in both variants, provided the
head node is allocated and every non-tail head node carries a payload. -/
theorem pop_empty_iff_head_eq_tail {α : Type} (s : QState α) (n : node α)
    (hn : hGet s.heap s.head.node_ptr = some n)
    (hd : s.head.node_ptr ≠ s.tail.node_ptr → n.data.isSome) :
    (∃ r s2, popNH 1 s = some (r, s2) ∧
      ((r = none) ↔ s.head.node_ptr = s.tail.node_ptr) ∧
      (s.head.node_ptr = s.tail.node_ptr →
        s2 = heapReleaseRef widthNonHelping (acquireHead s).2 s.head.node_ptr)) ∧
    (∃ r s2, popH 1 s = some (r, s2) ∧
      ((r = none) ↔ s.head.node_ptr = s.tail.node_ptr) ∧
      (s.head.node_ptr = s.tail.node_ptr →
        s2 = heapReleaseRef widthHelping (acquireHead s).2 s.head.node_ptr)) := by
  have hn1 : hGet (acquireHead s).2.heap (acquireHead s).1.node_ptr = some n := hn
  by_cases hht : s.head.node_ptr = s.tail.node_ptr
  · constructor
    · refine ⟨none, heapReleaseRef widthNonHelping (acquireHead s).2 s.head.node_ptr,
        ?_, by simp [hht], fun _ => rfl⟩
      show popNH (0 + 1) s = _
      rw [popNH]
      dsimp only
      rw [hn1]
      dsimp only
      rw [if_pos (show (acquireHead s).1.node_ptr = (acquireHead s).2.tail.node_ptr
        from hht)]
      rfl
    · refine ⟨none, heapReleaseRef widthHelping (acquireHead s).2 s.head.node_ptr,
        ?_, by simp [hht], fun _ => rfl⟩
      show popH (0 + 1) s = _
      rw [popH]
      dsimp only
      rw [hn1]
      dsimp only
      rw [if_pos (show (acquireHead s).1.node_ptr = (acquireHead s).2.tail.node_ptr
        from hht)]
      rfl
  · obtain ⟨v, hv⟩ := Option.isSome_iff_exists.mp (hd hht)
    constructor
    · refine ⟨n.data,
        heapFreeExternal widthNonHelping
          { (acquireHead s).2 with head := n.next } (acquireHead s).1,
        ?_, ?_, fun h => absurd h hht⟩
      · show popNH (0 + 1) s = _
        rw [popNH]
        dsimp only
        rw [hn1]
        dsimp only
        rw [if_neg (show ¬ (acquireHead s).1.node_ptr
              = (acquireHead s).2.tail.node_ptr from hht),
          if_pos (show (acquireHead s).2.head = (acquireHead s).1 from rfl)]
      · exact iff_of_false (by simp [hv]) hht
    · refine ⟨n.data,
        heapFreeExternal widthHelping
          { (acquireHead s).2 with
            heap := hSet (acquireHead s).2.heap (acquireHead s).1.node_ptr
              { n with data := none }
            head := n.next } (acquireHead s).1,
        ?_, ?_, fun h => absurd h hht⟩
      · show popH (0 + 1) s = _
        rw [popH]
        dsimp only
        rw [hn1]
        dsimp only
        rw [if_neg (show ¬ (acquireHead s).1.node_ptr
              = (acquireHead s).2.tail.node_ptr from hht),
          if_pos (show (acquireHead s).2.head = (acquireHead s).1 from rfl)]
      · exact iff_of_false (by simp [hv]) hht

/-- C5 (amended): in the helping variant, whenever a pop wins the
head-advance CAS it extracts the payload by atomically exchanging the node's
payload slot back to empty: the pop returns exactly the old slot content,
and afterwards the slot is empty (or the node already freed), so no other
extraction can obtain a payload from this node.  The non-helping variant
instead reads the slot with `data.load()` and leaves it populated, its
at-most-one-pop guarantee resting on the head CAS alone. -/
theorem helping_pop_extracts_by_exchange {α : Type} (s : QState α)
    (n : node α) (v : α)
    (hn : hGet s.heap s.head.node_ptr = some n)
    (hv : n.data = some v)
    (hht : s.head.node_ptr ≠ s.tail.node_ptr)
    (hnd : (s.heap.map Prod.fst).Nodup) :
    ∃ s2, popH 1 s = some (some v, s2) ∧
      (hGet s2.heap s.head.node_ptr = none ∨
        ∃ n2, hGet s2.heap s.head.node_ptr = some n2 ∧ n2.data = none) := by
  have hn1 : hGet (acquireHead s).2.heap (acquireHead s).1.node_ptr = some n := hn
  refine ⟨heapFreeExternal widthHelping
      { (acquireHead s).2 with
        heap := hSet (acquireHead s).2.heap (acquireHead s).1.node_ptr
          { n with data := none }
        head := n.next } (acquireHead s).1, ?_, ?_⟩
  · show popH (0 + 1) s = _
    rw [popH]
    dsimp only
    rw [hn1]
    dsimp only
    rw [if_neg (show ¬ (acquireHead s).1.node_ptr
          = (acquireHead s).2.tail.node_ptr from hht),
      if_pos (show (acquireHead s).2.head = (acquireHead s).1 from rfl), hv]
  · have hscr : hGet (hSet s.heap s.head.node_ptr { n with data := none })
        s.head.node_ptr = some { n with data := none } :=
      hGet_hSet_self _ _ _ (by rw [hn]; rfl)
    simp only [heapFreeExternal, acquireHead]
    rw [hscr]
    dsimp only
    split
    · left
      apply hGet_hDel_self
      rw [hSet_keys]
      exact hnd
    · right
      refine ⟨_, hGet_hSet_self _ _ _ (by rw [hscr]; rfl), rfl⟩

/-- C5 (amended, witness): from the raced one-element state, the helping
pop returns the payload `7` and afterwards the old node's slot is empty or
the node is freed. -/
theorem helping_pop_extracts_by_exchange_witness :
    ∃ s2, popH 1 racedState = some (some 7, s2) ∧
      (hGet s2.heap racedState.head.node_ptr = none ∨
        ∃ n2, hGet s2.heap racedState.head.node_ptr = some n2 ∧
          n2.data = none) :=
  helping_pop_extracts_by_exchange racedState
    { data := some 7
      node_count := { internal_count := 0, external_counters := 1 }
      next := { external_count := 1, node_ptr := 2 } }
    7 rfl rfl (by decide) (by decide)

/-- Non-helping `push` from a state whose tail node is an allocated, empty
sentinel with both owning roles: the push succeeds within one loop
iteration and installs the payload into the old tail node, which survives
its tail-side retirement. -/
theorem pushNH_success {α : Type} (s : QState α) (v : α) (n : node α)
    (hn : hGet s.heap s.tail.node_ptr = some n)
    (hdata : n.data = none)
    (hec : n.node_count.external_counters = 2)
    (haddr : s.tail.node_ptr ≠ s.nextAddr) :
    ∃ s2, pushNH 1 s v = some s2 ∧
      ∃ n2, hGet s2.heap s.tail.node_ptr = some n2 ∧ n2.data = some v := by
  have hscr : hGet ((s.nextAddr, node.init) :: s.heap) s.tail.node_ptr
      = some n := by
    rw [hGet, if_neg haddr]
    exact hn
  have hndc : ∀ e : Int, ¬ deallocates (free_external_count widthNonHelping
      e n.node_count) := by
    intro e hdc
    unfold deallocates free_external_count at hdc
    rw [hec] at hdc
    exact absurd hdc.2 (by norm_num)
  have hset : hGet (hSet ((s.nextAddr, node.init) :: s.heap) s.tail.node_ptr
      { n with data := some v
               next := { external_count := 1, node_ptr := s.nextAddr } })
      s.tail.node_ptr
      = some { n with data := some v
                      next := { external_count := 1, node_ptr := s.nextAddr } } :=
    hGet_hSet_self _ _ _ (by rw [hscr]; rfl)
  refine ⟨heapFreeExternal widthNonHelping
      { heap := hSet ((s.nextAddr, node.init) :: s.heap) s.tail.node_ptr
          { data := some v, node_count := n.node_count
            next := { external_count := 1, node_ptr := s.nextAddr } }
        head := s.head
        tail := { external_count := 1, node_ptr := s.nextAddr }
        nextAddr := s.nextAddr + 1
        freed := s.freed }
      { external_count := s.tail.external_count + 1, node_ptr := s.tail.node_ptr },
    ?e1, ?e2⟩
  case e1 =>
    show pushImplNH (0 + 1) _ _ _ = _
    simp only [pushImplNH, acquireTail]
    rw [hscr]
    dsimp only
    rw [if_pos (show n.data.isNone = true by rw [hdata]; rfl)]
  case e2 =>
    simp only [heapFreeExternal, acquireTail]
    rw [hset]
    dsimp only
    rw [if_neg (hndc _)]
    dsimp only
    exact ⟨_, hGet_hSet_self _ _ _ (by rw [hset]; rfl), rfl⟩

/-- Helping `push` from a state whose tail node is an allocated, empty,
unlinked sentinel with both owning roles: the winner installs the payload,
links the new sentinel, swaps `tail`, and retires the old snapshot, which
survives with the payload installed. -/
theorem pushH_success {α : Type} (s : QState α) (v : α) (n : node α)
    (hn : hGet s.heap s.tail.node_ptr = some n)
    (hdata : n.data = none)
    (hec : n.node_count.external_counters = 2)
    (hnext : n.next = { external_count := 0, node_ptr := 0 })
    (haddr : s.tail.node_ptr ≠ s.nextAddr) :
    ∃ s2, pushH 1 s v = some s2 ∧
      ∃ n2, hGet s2.heap s.tail.node_ptr = some n2 ∧ n2.data = some v := by
  have hscr : hGet ((s.nextAddr, node.init) :: s.heap) s.tail.node_ptr
      = some n := by
    rw [hGet, if_neg haddr]
    exact hn
  have hndc : ∀ e : Int, ¬ deallocates (free_external_count widthHelping
      e n.node_count) := by
    intro e hdc
    unfold deallocates free_external_count at hdc
    rw [hec] at hdc
    exact absurd hdc.2 (by norm_num)
  have hset1 : hGet (hSet ((s.nextAddr, node.init) :: s.heap) s.tail.node_ptr
      { n with data := some v }) s.tail.node_ptr
      = some { n with data := some v } :=
    hGet_hSet_self _ _ _ (by rw [hscr]; rfl)
  have hset2 : hGet (hSet (hSet ((s.nextAddr, node.init) :: s.heap)
        s.tail.node_ptr { n with data := some v }) s.tail.node_ptr
        { n with data := some v
                 next := { external_count := 1, node_ptr := s.nextAddr } })
      s.tail.node_ptr
      = some { n with data := some v
                      next := { external_count := 1, node_ptr := s.nextAddr } } :=
    hGet_hSet_self _ _ _ (by rw [hset1]; rfl)
  refine ⟨setTailSeq
      { heap := hSet
          (hSet ((s.nextAddr, node.init) :: s.heap) s.tail.node_ptr
            { data := some v, node_count := n.node_count, next := n.next })
          s.tail.node_ptr
          { data := some v, node_count := n.node_count
            next := { external_count := 1, node_ptr := s.nextAddr } }
        head := s.head
        tail := { external_count := s.tail.external_count + 1
                  node_ptr := s.tail.node_ptr }
        nextAddr := s.nextAddr + 1
        freed := s.freed }
      { external_count := s.tail.external_count + 1, node_ptr := s.tail.node_ptr }
      { external_count := 1, node_ptr := s.nextAddr },
    ?e1, ?e2⟩
  case e1 =>
    show pushImplH (0 + 1) _ _ _ = _
    simp only [pushImplH, acquireTail]
    rw [hscr]
    dsimp only
    rw [if_pos (show n.data.isNone = true by rw [hdata]; rfl),
      if_pos (show n.next = { external_count := 0, node_ptr := 0 } from hnext)]
  case e2 =>
    simp only [setTailSeq, acquireTail, heapFreeExternal]
    rw [hset2]
    dsimp only
    rw [if_neg (hndc _)]
    exact ⟨_, hGet_hSet_self _ _ _ (by rw [hset2]; rfl), rfl⟩

/-- C7: for every argument list (modelled by the constructed value `v`) and
every allocation outcome, `push` constructs the element and a fresh sentinel
node and can fail only through allocation: if either allocation fails the
call returns the out-of-memory error with the queue state unchanged (no
value enqueued, no half-linked node), and if both succeed the push completes
and the constructed value is owned by the structure (it sits in the old
tail node's payload slot) — in both variants. -/
theorem push_fails_only_on_allocation {α : Type} (an ad : Bool)
    (s : QState α) (v : α) (n : node α)
    (hn : hGet s.heap s.tail.node_ptr = some n)
    (hdata : n.data = none)
    (hec : n.node_count.external_counters = 2)
    (hnext : n.next = { external_count := 0, node_ptr := 0 })
    (haddr : s.tail.node_ptr ≠ s.nextAddr) :
    ((an = false ∨ ad = false) →
      pushCheckedNH an ad 1 s v = Except.error s ∧
      pushCheckedH ad an 1 s v = Except.error s) ∧
    (an = true → ad = true →
      (∃ s2, pushCheckedNH an ad 1 s v = Except.ok (some s2) ∧
        ∃ n2, hGet s2.heap s.tail.node_ptr = some n2 ∧ n2.data = some v) ∧
      (∃ s2, pushCheckedH ad an 1 s v = Except.ok (some s2) ∧
        ∃ n2, hGet s2.heap s.tail.node_ptr = some n2 ∧ n2.data = some v)) := by
  constructor
  · rintro (h | h)
    · rw [h]
      constructor
      · rfl
      · unfold pushCheckedH
        cases ad with
        | false => rfl
        | true => rfl
    · rw [h]
      constructor
      · unfold pushCheckedNH
        cases an with
        | false => rfl
        | true => rfl
      · rfl
  · rintro rfl rfl
    obtain ⟨s2, hs2, hn2⟩ := pushNH_success s v n hn hdata hec haddr
    obtain ⟨s3, hs3, hn3⟩ := pushH_success s v n hn hdata hec hnext haddr
    exact ⟨⟨s2, by rw [pushCheckedNH, if_neg (by simp), if_neg (by simp), hs2],
      hn2⟩,
      ⟨s3, by rw [pushCheckedH, if_neg (by simp), if_neg (by simp), hs3], hn3⟩⟩

/-- C7 (witness): pushing `7` onto a fresh queue: failed allocations leave
the queue unchanged, successful allocations install the payload into the
old sentinel — both variants, evaluated at concrete allocation outcomes. -/
theorem push_fails_only_on_allocation_witness :
    ((true = false ∨ true = false) →
      pushCheckedNH true true 1 (initQ Nat) 7 = Except.error (initQ Nat) ∧
      pushCheckedH true true 1 (initQ Nat) 7 = Except.error (initQ Nat)) ∧
    (true = true → true = true →
      (∃ s2, pushCheckedNH true true 1 (initQ Nat) 7 = Except.ok (some s2) ∧
        ∃ n2, hGet s2.heap (initQ Nat).tail.node_ptr = some n2 ∧
          n2.data = some 7) ∧
      (∃ s2, pushCheckedH true true 1 (initQ Nat) 7 = Except.ok (some s2) ∧
        ∃ n2, hGet s2.heap (initQ Nat).tail.node_ptr = some n2 ∧
          n2.data = some 7)) :=
  push_fails_only_on_allocation true true (initQ Nat) 7 node.init
    rfl rfl rfl rfl (by decide)

/-- C4 (witness): on a freshly constructed queue, whose single sentinel is
stored in both head and tail, both variants' `pop` return no value. -/
theorem pop_empty_iff_head_eq_tail_witness :
    (∃ r s2, popNH 1 (initQ Nat) = some (r, s2) ∧
      ((r = none) ↔ (initQ Nat).head.node_ptr = (initQ Nat).tail.node_ptr) ∧
      ((initQ Nat).head.node_ptr = (initQ Nat).tail.node_ptr →
        s2 = heapReleaseRef widthNonHelping (acquireHead (initQ Nat)).2
          (initQ Nat).head.node_ptr)) ∧
    (∃ r s2, popH 1 (initQ Nat) = some (r, s2) ∧
      ((r = none) ↔ (initQ Nat).head.node_ptr = (initQ Nat).tail.node_ptr) ∧
      ((initQ Nat).head.node_ptr = (initQ Nat).tail.node_ptr →
        s2 = heapReleaseRef widthHelping (acquireHead (initQ Nat)).2
          (initQ Nat).head.node_ptr)) :=
  pop_empty_iff_head_eq_tail (initQ Nat) node.init rfl
    (fun h => absurd rfl h)

end AMTL
